import Mathlib

/-!
Verification development for the offline-first mobile-money transaction
prototype (React + IndexedDB + service worker).

The repository carries two variants of the application component
(`App.jsx`, called "variant A" below, and `MobiLedger.jsx`, "variant B")
that share the same IndexedDB helper functions (`addTransaction`,
`getAllTransactions`, `updateTransaction`) and the same synchronization
logic (`trySync`, `fakeSendToServer`), and two service-worker variants
(`public/service-worker.js` with cache name `om-cache-v1`, and a second
worker with cache name `om-cache-v2`).

The IndexedDB object store (keyPath `id`) is modelled as a `List Txn`
in key-insertion order; ids are the keys.  Asynchronous code is modelled
by explicit state passing; `trySync` is split at its suspension point
(the `await fakeSendToServer(...)`) into two phases so that overlapping
calls can be expressed.
-/

set_option autoImplicit false

namespace TransacMoneySauv

/-- A transaction record as built by `handleSubmit` in variant A
(`App.jsx`): `{id, type, nom_complet, id_document, telephone, montant,
status, created_at}`, with `synced_at` added later by the sync patch.
`montant` is an `Int` (variant A stores `parseInt` of a digit string). -/
structure Txn where
  id : String
  type : String
  nom_complet : String
  id_document : String
  telephone : String
  montant : Int
  status : String
  created_at : String
  synced_at : Option String := none
deriving Repr, DecidableEq

/-- Store-level failures: `alreadyExists` models the IndexedDB
`ConstraintError` with which `store.add` rejects on a duplicate key;
`notFound` models the rejection with `new Error` of message `Not found`
in `updateTransaction`. -/
inductive StoreErr where
  | alreadyExists
  | notFound
deriving Repr, DecidableEq

/-- A patch as passed to `updateTransaction` and merged with the JS
spread `{...record, ...patch}`: every non-key field may be overridden.
The only patch the source ever passes sets `status` and `synced_at`
(see `syncPatch`).  The key `id` is not patchable: `store.put` writes
back under the same `keyPath` key. -/
structure Patch where
  type : Option String := none
  nom_complet : Option String := none
  id_document : Option String := none
  telephone : Option String := none
  montant : Option Int := none
  status : Option String := none
  created_at : Option String := none
  synced_at : Option (Option String) := none
deriving Repr, DecidableEq

/-- The JS spread merge `{...record, ...patch}`: fields present in the
patch override, all other fields keep the record's values. -/
def mergePatch (r : Txn) (p : Patch) : Txn :=
  { id := r.id
    type := p.type.getD r.type
    nom_complet := p.nom_complet.getD r.nom_complet
    id_document := p.id_document.getD r.id_document
    telephone := p.telephone.getD r.telephone
    montant := p.montant.getD r.montant
    status := p.status.getD r.status
    created_at := p.created_at.getD r.created_at
    synced_at := p.synced_at.getD r.synced_at }

/-- The patch `trySync` applies to each accepted id:
`{ status: synced, synced_at: now }`. -/
def syncPatch (now : String) : Patch :=
  { status := some "synced", synced_at := some (some now) }

/-- `addTransaction(tx)`: `store.add(tx)` on the keyPath-`id` object
store rejects with a `ConstraintError` when the key is already present
(the transaction aborts, leaving the store unchanged) and otherwise
persists the record.  Returns the operation result together with the
resulting store contents. -/
def addTransaction (tx : Txn) (store : List Txn) :
    Except StoreErr Unit × List Txn :=
  if store.any (fun t => t.id == tx.id) then
    (Except.error StoreErr.alreadyExists, store)
  else
    (Except.ok (), store ++ [tx])

/-- `getAllTransactions()`: `store.getAll()` returns every record. -/
def getAllTransactions (store : List Txn) : List Txn :=
  store

/-- `updateTransaction(id, patch)`: `store.get(id)`; if no record is
found, reject (`Not found`) without writing; otherwise merge the patch
with the JS spread and `store.put` the merged record back under the
same key.  Returns the operation result together with the resulting
store contents. -/
def updateTransaction (i : String) (p : Patch) (store : List Txn) :
    Except StoreErr Txn × List Txn :=
  match store.find? (fun t => t.id == i) with
  | none => (Except.error StoreErr.notFound, store)
  | some r =>
      let u := mergePatch r p
      (Except.ok u, store.map (fun t => if t.id == i then u else t))

/-- Lookup by key in the modelled object store. -/
def getById (store : List Txn) (i : String) : Option Txn :=
  store.find? (fun t => t.id == i)

/-- The batch of `updateTransaction (id, {status, synced_at})` calls
issued by `trySync` for the accepted ids, one per id.  The source runs
them under `Promise.all`; the ids are distinct keys and each call
touches only its own record, so the fold is a faithful serialization.
Each JS call stamps its own `new Date()`; the model passes one
timestamp, which is adequate because no verified property depends on
the timestamps differing. -/
def applyAccepted (now : String) (acc : List String) (store : List Txn) :
    List Txn :=
  acc.foldl (fun st i => (updateTransaction i (syncPatch now) st).2) store

/-- `transactions.filter((t) => t.status === 'pending')`. -/
def pendingOf (ts : List Txn) : List Txn :=
  ts.filter (fun t => t.status == "pending")

/-- The shape of the stub transport's response. -/
structure SyncResp where
  ok : Bool
  syncedIds : List String
deriving Repr, DecidableEq

/-- `fakeSendToServer(batch)`: resolves (after a timer, irrelevant
here) with `{ ok: true, syncedIds: batch.map((b) => b.id) }`. -/
def fakeSendToServer (batch : List Txn) : SyncResp :=
  { ok := true, syncedIds := batch.map (fun b => b.id) }

/-- The interactive-context state: `transactions` is the React state
snapshot (set from the store by `loadTransactions`), `store` the
IndexedDB contents, `online` and `syncing` the two boolean states.
`submissions` counts invocations of the transport
(`fakeSendToServer`) and `triggerCalls` counts entries into `trySync`;
both are instrumentation counters, touched only where the source calls
the corresponding function. -/
structure AppState where
  transactions : List Txn
  store : List Txn
  online : Bool
  syncing : Bool
  submissions : Nat
  triggerCalls : Nat
deriving Repr, DecidableEq

/-- `trySync` up to its first suspension point (the `await` of
`fakeSendToServer`): set `syncing` to `true`, filter the in-memory
snapshot `transactions` to the pending ones, and if `pending.length
=== 0` return (the `finally` clears `syncing`); otherwise invoke the
transport (counted in `submissions`) and suspend.  The second
component is `some pending` when the call is now in flight awaiting
the transport, `none` when it returned at the empty check.  Note that
the source reads the `syncing` flag nowhere in `trySync`. -/
def trySyncPhase1 (s : AppState) : AppState × Option (List Txn) :=
  if (pendingOf s.transactions).length = 0 then
    ({ s with syncing := false, triggerCalls := s.triggerCalls + 1 }, none)
  else
    ({ s with syncing := true, triggerCalls := s.triggerCalls + 1, submissions := s.submissions + 1 },
     some (pendingOf s.transactions))

/-- `trySync` from the transport response onwards: with the stub
transport's response for the submitted batch, if `res.ok` then patch
every accepted id to `synced` and refresh the snapshot from the store
(`loadTransactions`; the source additionally sorts the snapshot by
`created_at` descending, a permutation no verified property depends
on); the `finally` clears `syncing`. -/
def trySyncPhase2 (now : String) (batch : List Txn) (s : AppState) :
    AppState :=
  if (fakeSendToServer batch).ok then
    { s with
      store := applyAccepted now (fakeSendToServer batch).syncedIds s.store,
      transactions :=
        applyAccepted now (fakeSendToServer batch).syncedIds s.store,
      syncing := false }
  else { s with syncing := false }

/-- The `online` event handler registered by the component:
`const onOnline = () => setOnline(true)` — it sets the online flag and
does nothing else. -/
def onOnline (s : AppState) : AppState :=
  { s with online := true }

/-- Modelled from the spec: the Connectivity Monitor, on transition to
online, invokes the Synchronization Engine's trigger exactly once per
transition.  Missing from the source: no code path calls `trySync`
from the `online` event handler; this reference definition follows the
spec's words (set the flag, then enter `trySync` once; entries are
counted by `triggerCalls`). -/
def onOnlineSpec (s : AppState) : AppState :=
  (trySyncPhase1 { s with online := true }).1

/-- Modelled from the spec: `trigger()` reads all records via the
Store (`getAllTransactions`) and filters to pending; it reaches the
transport exactly when that set is nonempty.  This reference
definition follows the spec's words; the source instead filters the
in-memory snapshot (see `trySyncPhase1`). -/
def trySyncSpecReadsStore (s : AppState) : Bool :=
  !(pendingOf (getAllTransactions s.store)).isEmpty

/-- Sample pending transaction used in concrete scenarios. -/
def txA : Txn :=
  { id := "a1", type := "deposit", nom_complet := "Ada", id_document := "D1",
    telephone := "70000001", montant := 1000, status := "pending",
    created_at := "2026-01-01T00:00:00.000Z", synced_at := none }

/-- Second sample pending transaction. -/
def txB : Txn :=
  { id := "b2", type := "withdrawal", nom_complet := "Bob", id_document := "D2",
    telephone := "70000002", montant := 500, status := "pending",
    created_at := "2026-01-02T00:00:00.000Z", synced_at := none }

example : (fakeSendToServer [txA, txB]).syncedIds = ["a1", "b2"] := by decide

example :
    getById (applyAccepted "T" ["a1"] [txA, txB]) "a1" =
      some { txA with status := "synced", synced_at := some "T" } := by decide

/-- A state with one pending transaction in both the snapshot and the
store, no cycle running. -/
def stOnePending : AppState :=
  { transactions := [txA], store := [txA], online := true,
    syncing := false, submissions := 0, triggerCalls := 0 }

example : (trySyncPhase1 stOnePending).1.submissions = 1 := by decide

/-- Helper for `formatAmountInput`, working on the reversed digit
list: emit the digits and a separating space before every further
group of three (the JS regex replacement inserts a space at every
position, other than the start, from which the remaining digit count
is a positive multiple of three).  `k` counts digits emitted in the
current group. -/
def groupRev (k : Nat) : List Char → List Char
  | [] => []
  | c :: cs =>
      if k = 3 then ' ' :: c :: groupRev 1 cs
      else c :: groupRev (k + 1) cs

/-- `formatAmountInput(value)` (variant A): strip every non-digit
character (the regex with the non-digit class); if nothing remains
return the empty string; otherwise insert a thousands-separating space
before each group of three digits counted from the right. -/
def formatAmountInput (value : String) : String :=
  if value.data.filter Char.isDigit = [] then ""
  else String.mk ((groupRev 0 (value.data.filter Char.isDigit).reverse).reverse)

/-- Decimal value of a digit string, as computed by `parseInt(s, 10)`
on strings consisting of decimal digits (the only strings it is
applied to here: `parseAmount` receives outputs of
`formatAmountInput`, digits grouped by spaces, and strips the
spaces). -/
def parseIntDigits (ds : List Char) : Int :=
  ds.foldl (fun n c => n * 10 + ((c.toNat : Int) - 48)) 0

/-- `parseAmount(formattedAmount)` (variant A): strip every whitespace
character (the regex with the whitespace class); the empty string maps
to `0`, anything else to its `parseInt` base-10 value. -/
def parseAmount (formattedAmount : String) : Int :=
  if formattedAmount.data.filter (fun c => !c.isWhitespace) = [] then 0
  else parseIntDigits (formattedAmount.data.filter (fun c => !c.isWhitespace))

/-- The form state of variant A (`App.jsx`). -/
structure FormA where
  type : String
  nom_complet : String
  id_document : String
  telephone : String
  montant : String
deriving Repr, DecidableEq

/-- `handleSubmit` of variant A, up to the `addTransaction` call: if
any of the four required fields is falsy (the empty string), notify
and return no record; otherwise build the transaction with a fresh
uuid, `montant := parseAmount(form.montant)`, `status := pending` and
the current ISO timestamp.  The uuid (`uuidv4`, random) and the
timestamp (`new Date`) are environment inputs, passed as parameters. -/
def handleSubmitA (freshId now : String) (form : FormA) : Option Txn :=
  if form.nom_complet = "" ∨ form.id_document = "" ∨
      form.telephone = "" ∨ form.montant = "" then none
  else some
    { id := freshId, type := form.type, nom_complet := form.nom_complet,
      id_document := form.id_document, telephone := form.telephone,
      montant := parseAmount form.montant, status := "pending",
      created_at := now, synced_at := none }

/-- Models the JS `parseFloat`, restricted to optional-sign strings of
decimal digits, on which IEEE-754 parsing is exact for the magnitudes
involved; `none` models `NaN` (no leading digits).  Variant B applies
it to the raw `montant` form field. -/
def parseFloatJS (s : String) : Option Int :=
  match s.data with
  | '-' :: ds =>
      if ds ≠ [] ∧ ds.all Char.isDigit then some (-(parseIntDigits ds))
      else none
  | ds =>
      if ds ≠ [] ∧ ds.all Char.isDigit then some (parseIntDigits ds)
      else none

/-- The form state of variant B (`MobiLedger.jsx`). -/
structure FormB where
  type : String
  prenom : String
  nom : String
  id_document : String
  telephone : String
  montant : String
deriving Repr, DecidableEq

/-- A transaction record as built by `handleSubmit` in variant B:
first/last name fields and `montant := parseFloat(form.montant)`
(`none` models `NaN`). -/
structure TxnB where
  id : String
  type : String
  prenom : String
  nom : String
  id_document : String
  telephone : String
  montant : Option Int
  status : String
  created_at : String
  synced_at : Option String := none
deriving Repr, DecidableEq

/-- `handleSubmit` of variant B, up to the `addTransaction` call: if
any of the five required fields is falsy (the empty string), alert and
return no record; otherwise build the transaction with
`montant := parseFloat(form.montant)` on the raw field value. -/
def handleSubmitB (freshId now : String) (form : FormB) : Option TxnB :=
  if form.prenom = "" ∨ form.nom = "" ∨ form.id_document = "" ∨
      form.telephone = "" ∨ form.montant = "" then none
  else some
    { id := freshId, type := form.type, prenom := form.prenom,
      nom := form.nom, id_document := form.id_document,
      telephone := form.telephone, montant := parseFloatJS form.montant,
      status := "pending", created_at := now, synced_at := none }

example : formatAmountInput "50000" = "50 000" := by decide

example : parseAmount "50 000" = 50000 := by decide

example : parseFloatJS "-5" = some (-5) := by decide

/-- An HTTP response, reduced to the parts the workers inspect: the
status code and an abstract body identifying the response. -/
structure Response where
  status : Nat
  body : String
deriving Repr, DecidableEq

/-- One cache namespace of the CacheStorage: its name and its entries,
keyed by request URL. -/
structure Cache where
  name : String
  entries : List (String × Response)
deriving Repr, DecidableEq

/-- The whole CacheStorage: the namespaces in creation order. -/
abbrev CacheStore : Type := List Cache

/-- Lookup of a URL inside one cache namespace. -/
def cacheLookup (c : Cache) (url : String) : Option Response :=
  (c.entries.find? (fun e => e.1 == url)).map (fun e => e.2)

/-- `caches.match(req)`: search every namespace in order, returning
the first hit. -/
def cachesMatch (cs : CacheStore) (url : String) : Option Response :=
  cs.findSome? (fun c => cacheLookup c url)

/-- `cache.put(req, resp)` inside one namespace: replace the entry for
the URL if present, else append it. -/
def cachePutEntries (entries : List (String × Response)) (url : String)
    (resp : Response) : List (String × Response) :=
  if entries.any (fun e => e.1 == url) then
    entries.map (fun e => if e.1 == url then (url, resp) else e)
  else entries ++ [(url, resp)]

/-- `caches.open(name).then(cache => cache.put(req, resp))`: open the
namespace (creating it if absent) and put the entry. -/
def cachePut (cs : CacheStore) (name url : String) (resp : Response) :
    CacheStore :=
  if cs.any (fun c => c.name == name) then
    cs.map (fun c =>
      if c.name == name then
        { name := c.name, entries := cachePutEntries c.entries url resp }
      else c)
  else cs ++ [{ name := name, entries := cachePutEntries [] url resp }]

/-- Lookup of a URL inside the namespace of a given name. -/
def cacheGet (cs : CacheStore) (name url : String) : Option Response :=
  (cs.find? (fun c => c.name == name)).bind (fun c => cacheLookup c url)

/-- The version token of `public/service-worker.js`. -/
def CACHE_NAME_V1 : String := "om-cache-v1"

/-- The version token of the second service-worker variant. -/
def CACHE_NAME_V2 : String := "om-cache-v2"

/-- The `activate` listener of `public/service-worker.js`:
`event.waitUntil(self.clients.claim())` — it claims the clients and
deletes no cache namespace, so the CacheStorage is left exactly as it
was. -/
def activatePublicV1 (cs : CacheStore) : CacheStore :=
  cs

/-- `caches.delete(k)`: remove the namespace named `k`. -/
def cachesDelete (cs : CacheStore) (k : String) : CacheStore :=
  cs.filter (fun c => !(c.name == k))

/-- The `activate` listener of the second service-worker variant:
`caches.keys()`, filter to the keys different from `CACHE_NAME`,
delete each of them, then claim the clients. -/
def activateV2 (cs : CacheStore) : CacheStore :=
  (((cs.map (fun c => c.name)).filter
      (fun k => !(k == CACHE_NAME_V2)))).foldl cachesDelete cs

/-- A request, reduced to the parts the workers inspect: URL, method,
mode (`navigate` marks navigation requests), and whether its URL
starts with the worker's origin. -/
structure Request where
  url : String
  method : String
  mode : String
  sameOrigin : Bool
deriving Repr, DecidableEq

/-- The `fetch` listener of `public/service-worker.js`, for any
request: `caches.match(req)` first; a cached response is returned
directly (the network is never consulted).  On a cache miss the
network is tried (`net`, with `none` modelling a rejected fetch): a
response is returned, and additionally stored in the `om-cache-v1`
namespace when the request is a same-origin GET and the status is 200;
on network failure a navigation falls back to the cached `/` entry and
any other request gets nothing.  The result is the response delivered,
the resulting CacheStorage, and whether the network was consulted. -/
def fetchPublicV1 (req : Request) (net : Option Response)
    (cs : CacheStore) : Option Response × CacheStore × Bool :=
  match cachesMatch cs req.url with
  | some cached => (some cached, cs, false)
  | none =>
      match net with
      | some resp =>
          let cs2 :=
            if req.method = "GET" ∧ resp.status = 200 ∧ req.sameOrigin then
              cachePut cs CACHE_NAME_V1 req.url resp
            else cs
          (some resp, cs2, true)
      | none =>
          if req.mode = "navigate" then (cachesMatch cs "/", cs, true)
          else (none, cs, true)

/-- The navigation branch of the second service-worker variant's
`fetch` listener (`req.mode === 'navigate'`): `fetch(req)` first; on a
response, store it in the `om-cache-v2` namespace keyed by the request
when its status is 200, and return it; on network failure
(`none`), fall back to `caches.match('/index.html')`.  The result is
as in `fetchPublicV1`; the network is always consulted. -/
def fetchNavigateV2 (req : Request) (net : Option Response)
    (cs : CacheStore) : Option Response × CacheStore × Bool :=
  match net with
  | some resp =>
      let cs2 :=
        if resp.status = 200 then cachePut cs CACHE_NAME_V2 req.url resp
        else cs
      (some resp, cs2, true)
  | none => (cachesMatch cs "/index.html", cs, true)

example :
    activateV2 [{ name := "om-cache-v1", entries := [] },
                { name := "om-cache-v2", entries := [] }] =
      [{ name := "om-cache-v2", entries := [] }] := by decide

example :
    cacheGet (cachePut [] CACHE_NAME_V2 "/" { status := 200, body := "x" })
      CACHE_NAME_V2 "/" = some { status := 200, body := "x" } := by decide

theorem find?_map_pred {α : Type} (f : α → α) (p : α → Bool)
    (hf : ∀ a, p (f a) = p a) (l : List α) :
    (l.map f).find? p = (l.find? p).map f := by
  induction l with
  | nil => rfl
  | cons a l ih =>
      simp only [List.map_cons, List.find?_cons]
      rw [hf a]
      cases h : p a with
      | false => exact ih
      | true => rfl

theorem mergePatch_id (r : Txn) (p : Patch) : (mergePatch r p).id = r.id := rfl

theorem getById_update_ne (i j : String) (p : Patch) (st : List Txn)
    (hij : i ≠ j) :
    getById (updateTransaction j p st).2 i = getById st i := by
  unfold updateTransaction getById
  cases hf : st.find? (fun t => t.id == j) with
  | none => rfl
  | some r =>
      have hr : r.id = j := by
        have := List.find?_some hf
        exact eq_of_beq this
      rw [find?_map_pred]
      · cases hg : st.find? (fun t => t.id == i) with
        | none => rfl
        | some u =>
            have hu : u.id = i := by
              have := List.find?_some hg
              exact eq_of_beq this
            have huj : (u.id == j) = false := by
              rw [hu]
              exact beq_eq_false_iff_ne.mpr hij
            simp only [Option.map]
            simp [huj]
      · intro a
        by_cases ha : a.id = j
        · simp [ha, mergePatch_id, hr]
        · simp [beq_eq_false_iff_ne.mpr ha]

theorem getById_update_eq (i : String) (p : Patch) (st : List Txn) (t : Txn)
    (ht : getById st i = some t) :
    getById (updateTransaction i p st).2 i = some (mergePatch t p) := by
  unfold getById at ht
  have hti : t.id = i := by
    have := List.find?_some ht
    exact eq_of_beq this
  unfold updateTransaction getById
  rw [ht]
  rw [find?_map_pred]
  · rw [ht]
    simp [hti]
  · intro a
    by_cases ha : a.id = i
    · simp [ha, mergePatch_id, hti]
    · simp [beq_eq_false_iff_ne.mpr ha]

theorem mem_update_ne (j : String) (p : Patch) (st : List Txn) (t : Txn)
    (ht : t ∈ st) (htj : t.id ≠ j) :
    t ∈ (updateTransaction j p st).2 := by
  unfold updateTransaction
  cases hf : st.find? (fun x => x.id == j) with
  | none => exact ht
  | some r =>
      simp only
      have : t = (fun x => if x.id == j then mergePatch r p else x) t := by
        simp [beq_eq_false_iff_ne.mpr htj]
      rw [this]
      exact List.mem_map_of_mem _ ht

theorem mergePatch_syncPatch (t : Txn) (now : String) :
    mergePatch t (syncPatch now) =
      { t with status := "synced", synced_at := some now } := rfl

theorem mergePatch_syncPatch_idem (t : Txn) (now : String) :
    mergePatch (mergePatch t (syncPatch now)) (syncPatch now) =
      mergePatch t (syncPatch now) := rfl

theorem getById_applyAccepted_not_mem (now : String) (acc : List String)
    (st : List Txn) (i : String) (hi : i ∉ acc) :
    getById (applyAccepted now acc st) i = getById st i := by
  induction acc generalizing st with
  | nil => rfl
  | cons a acc ih =>
      have hia : i ≠ a := fun h => hi (h ▸ List.mem_cons_self a acc)
      have hi' : i ∉ acc := fun h => hi (List.mem_cons_of_mem a h)
      unfold applyAccepted
      simp only [List.foldl_cons]
      have := ih ((updateTransaction a (syncPatch now) st).2) hi'
      unfold applyAccepted at this
      rw [this]
      exact getById_update_ne i a (syncPatch now) st hia

theorem mem_applyAccepted_not_mem (now : String) (acc : List String)
    (st : List Txn) (t : Txn) (ht : t ∈ st) (hi : t.id ∉ acc) :
    t ∈ applyAccepted now acc st := by
  induction acc generalizing st with
  | nil => exact ht
  | cons a acc ih =>
      have hia : t.id ≠ a := fun h => hi (h ▸ List.mem_cons_self a acc)
      have hi' : t.id ∉ acc := fun h => hi (List.mem_cons_of_mem a h)
      unfold applyAccepted
      simp only [List.foldl_cons]
      have hmem := mem_update_ne a (syncPatch now) st t ht hia
      have := ih ((updateTransaction a (syncPatch now) st).2) hmem hi'
      unfold applyAccepted at this
      exact this

theorem getById_applyAccepted_mem (now : String) (acc : List String)
    (st : List Txn) (i : String) (t : Txn)
    (ht : getById st i = some t) (hi : i ∈ acc) :
    getById (applyAccepted now acc st) i =
      some (mergePatch t (syncPatch now)) := by
  induction acc generalizing st t with
  | nil => cases hi
  | cons a acc ih =>
      unfold applyAccepted
      simp only [List.foldl_cons]
      by_cases hia : i = a
      · subst hia
        have hstep := getById_update_eq i (syncPatch now) st t ht
        by_cases hin : i ∈ acc
        · have := ih ((updateTransaction i (syncPatch now) st).2)
            (mergePatch t (syncPatch now)) hstep hin
          unfold applyAccepted at this
          rw [this, mergePatch_syncPatch_idem]
        · have := getById_applyAccepted_not_mem now acc
            ((updateTransaction i (syncPatch now) st).2) i hin
          unfold applyAccepted at this
          rw [this, hstep]
      · have hin : i ∈ acc := by
          cases hi with
          | head => exact absurd rfl hia
          | tail _ h => exact h
        have hpres : getById ((updateTransaction a (syncPatch now) st).2) i =
            some t := by
          rw [getById_update_ne i a (syncPatch now) st hia, ht]
        have := ih ((updateTransaction a (syncPatch now) st).2) t hpres hin
        unfold applyAccepted at this
        exact this

theorem foldl_cachesDelete (ds : List String) (cs : CacheStore) :
    ds.foldl cachesDelete cs =
      cs.filter (fun c => !(ds.contains c.name)) := by
  induction ds generalizing cs with
  | nil => simp
  | cons d ds ih =>
      simp only [List.foldl_cons]
      rw [ih]
      unfold cachesDelete
      rw [List.filter_filter]
      apply List.filter_congr
      intro c _
      by_cases hd : c.name = d <;>
        simp [List.contains_cons, Bool.not_or, Bool.and_comm, hd]

theorem activateV2_eq_filter (cs : CacheStore) :
    activateV2 cs = cs.filter (fun c => c.name == CACHE_NAME_V2) := by
  unfold activateV2
  rw [foldl_cachesDelete]
  apply List.filter_congr
  intro c hc
  have hcont :
      ((cs.map (fun c => c.name)).filter
        (fun k => !(k == CACHE_NAME_V2))).contains c.name =
      decide (c.name ∈ (cs.map (fun c => c.name)).filter
        (fun k => !(k == CACHE_NAME_V2))) := by
    simp [List.contains]
  rw [hcont]
  by_cases h : c.name = CACHE_NAME_V2
  · have hnm : ¬ c.name ∈ (cs.map (fun c => c.name)).filter
        (fun k => !(k == CACHE_NAME_V2)) := by
      intro hmem
      rcases List.mem_filter.mp hmem with ⟨-, hk⟩
      rw [h] at hk
      simp at hk
    simp [hnm, h]
  · have hmem : c.name ∈ (cs.map (fun c => c.name)).filter
        (fun k => !(k == CACHE_NAME_V2)) := by
      apply List.mem_filter.mpr
      refine ⟨List.mem_map_of_mem _ hc, ?_⟩
      simp [h]
    simp [hmem, h]

theorem map_name_filter_v2 (cs : CacheStore) :
    (cs.filter (fun c => c.name == CACHE_NAME_V2)).map (fun c => c.name) =
      (cs.map (fun c => c.name)).filter (fun k => k == CACHE_NAME_V2) := by
  induction cs with
  | nil => rfl
  | cons c cs ih =>
      simp only [List.filter_cons, List.map_cons]
      cases h : (c.name == CACHE_NAME_V2) with
      | false => simp [h, ih]
      | true => simp [h, ih]

theorem cachesMatch_activateV2 (cs : CacheStore) (url : String)
    (r : Response) (h : cachesMatch (activateV2 cs) url = some r) :
    ∃ c ∈ cs, c.name = CACHE_NAME_V2 ∧ cacheLookup c url = some r := by
  rw [activateV2_eq_filter] at h
  unfold cachesMatch at h
  rcases List.exists_of_findSome?_eq_some h with ⟨c, hc, hlook⟩
  rcases List.mem_filter.mp hc with ⟨hmem, hname⟩
  exact ⟨c, hmem, eq_of_beq hname, hlook⟩

theorem find?_eq_none_of_any_false {α : Type} (p : α → Bool) (l : List α)
    (h : l.any p = false) : l.find? p = none := by
  apply List.find?_eq_none.mpr
  intro x hx hpx
  have : l.any p = true := List.any_eq_true.mpr ⟨x, hx, hpx⟩
  rw [h] at this
  cases this

theorem cachePutEntries_find? (es : List (String × Response))
    (url : String) (r : Response) :
    (cachePutEntries es url r).find? (fun e => e.1 == url) =
      some (url, r) := by
  unfold cachePutEntries
  cases ha : es.any (fun e => e.1 == url) with
  | false =>
      simp only [Bool.false_eq_true, if_false]
      rw [List.find?_append, find?_eq_none_of_any_false _ _ ha]
      simp
  | true =>
      simp only [if_true]
      rw [find?_map_pred]
      · rcases List.any_eq_true.mp ha with ⟨e, he, hpe⟩
        have hsome : (es.find? (fun e => e.1 == url)).isSome = true :=
          List.find?_isSome.mpr ⟨e, he, hpe⟩
        cases hf : es.find? (fun e => e.1 == url) with
        | none => rw [hf] at hsome; cases hsome
        | some e0 =>
            have hp0 := List.find?_some hf
            have he0 : e0.1 = url := eq_of_beq hp0
            simp [hp0, he0]
      · intro a
        by_cases hx : a.1 = url
        · simp [hx]
        · simp [beq_eq_false_iff_ne.mpr hx]

theorem cacheGet_cachePut (cs : CacheStore) (n url : String)
    (r : Response) : cacheGet (cachePut cs n url r) n url = some r := by
  unfold cachePut cacheGet
  cases ha : cs.any (fun c => c.name == n) with
  | false =>
      simp only [Bool.false_eq_true, if_false]
      rw [List.find?_append, find?_eq_none_of_any_false _ _ ha]
      simp [cacheLookup, cachePutEntries_find?]
  | true =>
      simp only [if_true]
      rw [find?_map_pred]
      · rcases List.any_eq_true.mp ha with ⟨c, hc, hpc⟩
        have hsome : (cs.find? (fun c => c.name == n)).isSome = true :=
          List.find?_isSome.mpr ⟨c, hc, hpc⟩
        cases hf : cs.find? (fun c => c.name == n) with
        | none => rw [hf] at hsome; cases hsome
        | some c0 =>
            have hp0 := List.find?_some hf
            have hc0 : c0.name = n := eq_of_beq hp0
            simp [cacheLookup, cachePutEntries_find?, hp0, hc0]
      · intro a
        by_cases hx : a.name = n
        · simp [hx]
        · simp [beq_eq_false_iff_ne.mpr hx]

theorem mem_groupRev (ds : List Char) (c : Char) :
    ∀ k : Nat, c ∈ groupRev k ds → c = ' ' ∨ c ∈ ds := by
  induction ds with
  | nil => intro k hc; cases hc
  | cons d ds ih =>
      intro k hc
      unfold groupRev at hc
      split at hc
      · rcases List.mem_cons.mp hc with h1 | hc2
        · exact Or.inl h1
        · rcases List.mem_cons.mp hc2 with h2 | hc3
          · exact Or.inr (h2 ▸ List.mem_cons_self d ds)
          · rcases ih 1 hc3 with h | h
            · exact Or.inl h
            · exact Or.inr (List.mem_cons_of_mem d h)
      · rcases List.mem_cons.mp hc with h2 | hc3
        · exact Or.inr (h2 ▸ List.mem_cons_self d ds)
        · rcases ih (k + 1) hc3 with h | h
          · exact Or.inl h
          · exact Or.inr (List.mem_cons_of_mem d h)

theorem formatAmountInput_chars (s : String) (c : Char)
    (hc : c ∈ (formatAmountInput s).data) : c = ' ' ∨ c.isDigit = true := by
  unfold formatAmountInput at hc
  split at hc
  · cases hc
  · rcases mem_groupRev (s.data.filter Char.isDigit).reverse c 0
        (List.mem_reverse.mp hc) with h | h
    · exact Or.inl h
    · exact Or.inr (List.mem_filter.mp (List.mem_reverse.mp h)).2

theorem isDigit_toNat_ge (c : Char) (h : c.isDigit = true) :
    48 ≤ c.toNat := by
  unfold Char.isDigit at h
  simp only [Bool.and_eq_true, decide_eq_true_eq] at h
  exact h.1

theorem parseIntDigits_foldl_nonneg (ds : List Char)
    (hds : ∀ c ∈ ds, c.isDigit = true) :
    ∀ n : Int, 0 ≤ n →
      0 ≤ ds.foldl (fun m c => m * 10 + ((c.toNat : Int) - 48)) n := by
  induction ds with
  | nil => intro n hn; exact hn
  | cons c ds ih =>
      intro n hn
      simp only [List.foldl_cons]
      apply ih
      · intro x hx
        exact hds x (List.mem_cons_of_mem c hx)
      · have h48 : 48 ≤ c.toNat :=
          isDigit_toNat_ge c (hds c (List.mem_cons_self c ds))
        have h48' : (48 : Int) ≤ (c.toNat : Int) := by exact_mod_cast h48
        have hmul : (0 : Int) ≤ n * 10 := by linarith
        linarith

theorem parseIntDigits_nonneg (ds : List Char)
    (hds : ∀ c ∈ ds, c.isDigit = true) : 0 ≤ parseIntDigits ds :=
  parseIntDigits_foldl_nonneg ds hds 0 le_rfl

theorem parseAmount_formatAmountInput_nonneg (raw : String) :
    0 ≤ parseAmount (formatAmountInput raw) := by
  unfold parseAmount
  split
  · exact le_rfl
  · apply parseIntDigits_nonneg
    intro c hc
    rcases List.mem_filter.mp hc with ⟨hmem, hw⟩
    rcases formatAmountInput_chars raw c hmem with h | h
    · rw [h] at hw
      simp at hw
    · exact h

/-- State in which a sync cycle is already in flight is reached by
running `trySyncPhase1` on `stOnePending`; the states below are
further concrete scenarios. -/
def stOffline : AppState :=
  { transactions := [txA], store := [txA], online := false,
    syncing := false, submissions := 0, triggerCalls := 0 }

/-- A state whose in-memory snapshot is stale: the store holds a
pending record the snapshot does not show (e.g. right after an
`addTransaction` whose `setTransactions` refresh has not landed in the
closure `trySync` reads). -/
def stStaleSnapshot : AppState :=
  { transactions := [], store := [txA], online := true,
    syncing := false, submissions := 0, triggerCalls := 0 }

/-- C1 counterexample: starting from a state with one pending record,
the first `trySync` call runs to its transport await (one submission,
now in flight) and a second call entered at that point submits again:
the overlapping pair performs 2 transport submissions, not 1.
`trySync` never reads the `syncing` flag, so the second call is not
dropped. -/
theorem trySync_overlap_double_submission_cex :
    (trySyncPhase1 stOnePending).2 = some [txA] ∧
    (trySyncPhase1 stOnePending).1.syncing = true ∧
    (trySyncPhase1 (trySyncPhase1 stOnePending).1).1.submissions = 2 ∧
    ¬ (trySyncPhase1 (trySyncPhase1 stOnePending).1).1.submissions = 1 := by
  decide

/-- C1 (amended): `trySync` has no reentrancy guard: it sets the
`syncing` flag but never reads it, so a second call entered while the
first is in flight is not dropped — whenever the pending snapshot is
nonempty, each of the two overlapping calls performs its own transport
submission (2 in total for the pair); only the UI force-sync button is
disabled while `syncing` is set. -/
theorem trySync_no_inflight_guard (s : AppState)
    (h : pendingOf s.transactions ≠ []) :
    (trySyncPhase1 s).2 = some (pendingOf s.transactions) ∧
    (trySyncPhase1 s).1.syncing = true ∧
    (trySyncPhase1 (trySyncPhase1 s).1).1.submissions = s.submissions + 2 := by
  have hlen : ¬ (pendingOf s.transactions).length = 0 := by
    intro h0
    exact h (List.length_eq_zero.mp h0)
  refine ⟨?_, ?_, ?_⟩
  · simp [trySyncPhase1, hlen]
  · simp [trySyncPhase1, hlen]
  · simp [trySyncPhase1, hlen]

/-- Witness for `trySync_no_inflight_guard` at `stOnePending`. -/
theorem trySync_no_inflight_guard_witness :
    (trySyncPhase1 stOnePending).2 =
      some (pendingOf stOnePending.transactions) ∧
    (trySyncPhase1 stOnePending).1.syncing = true ∧
    (trySyncPhase1 (trySyncPhase1 stOnePending).1).1.submissions =
      stOnePending.submissions + 2 :=
  trySync_no_inflight_guard stOnePending (by decide)

/-- C2 counterexample: on the offline-to-online transition the
registered handler is `() => setOnline(true)`: starting offline with a
pending record ready to sync, it sets the flag and performs zero
`trySync` invocations, where the spec-modelled monitor
(`onOnlineSpec`) performs exactly one. -/
theorem onOnline_no_trigger_cex :
    (onOnline stOffline).online = true ∧
    (onOnline stOffline).triggerCalls = 0 ∧
    (onOnlineSpec stOffline).triggerCalls = 1 ∧
    ¬ onOnline stOffline = onOnlineSpec stOffline := by
  decide

/-- C2 (amended): the `online` event handler only sets the online
flag; it never invokes the Synchronization Engine's trigger
(`trySync`), so a reconnection alone starts no sync cycle — a sync
after reconnect happens only via the next insert (`handleSubmit` while
online) or the manual force-sync action. -/
theorem onOnline_only_sets_flag (s : AppState) :
    onOnline s = { s with online := true } ∧
    (onOnline s).triggerCalls = s.triggerCalls ∧
    (onOnline s).submissions = s.submissions ∧
    (onOnline s).store = s.store :=
  ⟨rfl, rfl, rfl, rfl⟩

/-- C3 counterexample: `trySync` filters the in-memory snapshot
(`transactions`), not a fresh Store read: in a state whose store holds
a pending record that the snapshot does not show, the spec-modelled
engine (`trySyncSpecReadsStore`, reading via `getAllTransactions`)
would submit, but the code performs no transport call and returns at
its empty check. -/
theorem trySync_reads_snapshot_not_store_cex :
    trySyncSpecReadsStore stStaleSnapshot = true ∧
    (trySyncPhase1 stStaleSnapshot).1.submissions = 0 ∧
    (trySyncPhase1 stStaleSnapshot).2 = none := by
  decide

/-- C3 (amended): every `trySync` call filters the in-memory snapshot
`transactions` (loaded earlier from the Store by `loadTransactions`),
not a fresh `getAllTransactions` read; when that filtered set is empty
the call returns immediately: no transport submission, no store
change, and the `syncing` flag is cleared by the `finally`. -/
theorem trySync_empty_snapshot_noop (s : AppState)
    (h : pendingOf s.transactions = []) :
    (trySyncPhase1 s).1.submissions = s.submissions ∧
    (trySyncPhase1 s).2 = none ∧
    (trySyncPhase1 s).1.store = s.store ∧
    (trySyncPhase1 s).1.syncing = false := by
  have hlen : (pendingOf s.transactions).length = 0 := by
    rw [h]
    rfl
  refine ⟨?_, ?_, ?_, ?_⟩ <;> simp [trySyncPhase1, hlen]

/-- Witness for `trySync_empty_snapshot_noop` at `stStaleSnapshot`. -/
theorem trySync_empty_snapshot_noop_witness :
    (trySyncPhase1 stStaleSnapshot).1.submissions =
      stStaleSnapshot.submissions ∧
    (trySyncPhase1 stStaleSnapshot).2 = none ∧
    (trySyncPhase1 stStaleSnapshot).1.store = stStaleSnapshot.store ∧
    (trySyncPhase1 stStaleSnapshot).1.syncing = false :=
  trySync_empty_snapshot_noop stStaleSnapshot (by decide)

theorem getById_of_mem_nodup (store : List Txn) (t : Txn)
    (hmem : t ∈ store) (hnd : (store.map (fun x => x.id)).Nodup) :
    getById store t.id = some t := by
  induction store with
  | nil => cases hmem
  | cons a l ih =>
      simp only [List.map_cons, List.nodup_cons] at hnd
      rcases List.mem_cons.mp hmem with h | h
      · subst h
        unfold getById
        rw [List.find?_cons_of_pos]
        simp
      · unfold getById
        rw [List.find?_cons_of_neg]
        · exact ih h hnd.2
        · intro hbeq
          exact hnd.1 ((eq_of_beq hbeq) ▸ List.mem_map_of_mem _ h)

/-- C4: in a cycle where the transport accepts a subset of the
submitted pending ids, `trySync` patches every accepted id's record to
`status = synced` with `synced_at` set (via the per-id
`updateTransaction` calls), and every record whose id is not accepted
is left untouched in the store — in particular a pending one remains
pending and is found unchanged under its id. -/
theorem trySync_partial_acceptance (now : String) (store : List Txn)
    (acc : List String) (t : Txn) (hmem : t ∈ store)
    (hnd : (store.map (fun x => x.id)).Nodup) :
    (t.id ∈ acc →
      getById (applyAccepted now acc store) t.id =
        some { t with status := "synced", synced_at := some now }) ∧
    (t.id ∉ acc →
      t ∈ applyAccepted now acc store ∧
      getById (applyAccepted now acc store) t.id = some t) := by
  have hget : getById store t.id = some t :=
    getById_of_mem_nodup store t hmem hnd
  constructor
  · intro hin
    rw [← mergePatch_syncPatch]
    exact getById_applyAccepted_mem now acc store t.id t hget hin
  · intro hnin
    refine ⟨mem_applyAccepted_not_mem now acc store t hmem hnin, ?_⟩
    rw [getById_applyAccepted_not_mem now acc store t.id hnin]
    exact hget

/-- Witness for `trySync_partial_acceptance`: pending records A and B,
only A's id accepted — A ends synced with `synced_at` set, B is in the
store unchanged and still pending. -/
theorem trySync_partial_acceptance_witness :
    getById (applyAccepted "T" ["a1"] [txA, txB]) "a1" =
      some { txA with status := "synced", synced_at := some "T" } ∧
    txB ∈ applyAccepted "T" ["a1"] [txA, txB] ∧
    getById (applyAccepted "T" ["a1"] [txA, txB]) "b2" = some txB := by
  have hA := trySync_partial_acceptance "T" [txA, txB] ["a1"] txA
    (by decide) (by decide)
  have hB := trySync_partial_acceptance "T" [txA, txB] ["a1"] txB
    (by decide) (by decide)
  exact ⟨hA.1 (by decide), (hB.2 (by decide)).1, (hB.2 (by decide)).2⟩

/-- C5: `addTransaction` on a record whose id is already a key in the
store fails (the `store.add` rejection, surfaced to the caller as the
promise error) and leaves the store contents exactly unchanged; on a
fresh id it persists the record, which is then found under its id. -/
theorem addTransaction_contract (tx : Txn) (store : List Txn) :
    ((∃ t ∈ store, t.id = tx.id) →
      addTransaction tx store = (Except.error StoreErr.alreadyExists, store)) ∧
    ((∀ t ∈ store, t.id ≠ tx.id) →
      (addTransaction tx store).1 = Except.ok () ∧
      (addTransaction tx store).2 = store ++ [tx] ∧
      getById (addTransaction tx store).2 tx.id = some tx) := by
  constructor
  · rintro ⟨t, ht, hid⟩
    unfold addTransaction
    rw [if_pos]
    exact List.any_eq_true.mpr ⟨t, ht, beq_iff_eq.mpr hid⟩
  · intro hall
    have hany : store.any (fun t => t.id == tx.id) = false := by
      cases ha : store.any (fun t => t.id == tx.id) with
      | false => rfl
      | true =>
          rcases List.any_eq_true.mp ha with ⟨t, ht, hbeq⟩
          exact absurd (eq_of_beq hbeq) (hall t ht)
    have hnone : store.find? (fun t => t.id == tx.id) = none :=
      find?_eq_none_of_any_false _ _ hany
    unfold addTransaction
    rw [hany]
    refine ⟨rfl, rfl, ?_⟩
    show (store ++ [tx]).find? (fun t => t.id == tx.id) = some tx
    rw [List.find?_append, hnone]
    simp

/-- Witness for `addTransaction_contract`: inserting `txA` again into
a store already holding it errors and changes nothing; inserting `txB`
(fresh id) persists it. -/
theorem addTransaction_contract_witness :
    addTransaction txA [txA] = (Except.error StoreErr.alreadyExists, [txA]) ∧
    (addTransaction txB [txA]).1 = Except.ok () ∧
    getById (addTransaction txB [txA]).2 txB.id = some txB := by
  have h1 := addTransaction_contract txA [txA]
  have h2 := addTransaction_contract txB [txA]
  exact ⟨h1.1 ⟨txA, List.mem_singleton.mpr rfl, rfl⟩,
    (h2.2 (by decide)).1, (h2.2 (by decide)).2.2⟩

/-- C6: `updateTransaction` on an id absent from the store fails with
the not-found error and returns the store exactly unchanged (same
contents, hence same count); on a present id it merges the patch
fields into the existing record with the spread semantics (fields the
patch does not name keep their values), persists the merged record
under the id, and leaves every other record in place. -/
theorem updateTransaction_contract (i : String) (p : Patch)
    (store : List Txn) :
    (getById store i = none →
      (updateTransaction i p store).1 = Except.error StoreErr.notFound ∧
      (updateTransaction i p store).2 = store) ∧
    (∀ t, getById store i = some t →
      (updateTransaction i p store).1 = Except.ok (mergePatch t p) ∧
      getById (updateTransaction i p store).2 i = some (mergePatch t p) ∧
      (p.status = none → (mergePatch t p).status = t.status) ∧
      (p.synced_at = none → (mergePatch t p).synced_at = t.synced_at) ∧
      (p.montant = none → (mergePatch t p).montant = t.montant) ∧
      (p.status = some "synced" → (mergePatch t p).status = "synced") ∧
      (∀ u ∈ store, u.id ≠ i → u ∈ (updateTransaction i p store).2)) := by
  constructor
  · intro hn
    unfold getById at hn
    unfold updateTransaction
    rw [hn]
    exact ⟨rfl, rfl⟩
  · intro t ht
    have hok : (updateTransaction i p store).1 = Except.ok (mergePatch t p) := by
      unfold getById at ht
      unfold updateTransaction
      rw [ht]
    refine ⟨hok, getById_update_eq i p store t ht, ?_, ?_, ?_, ?_, ?_⟩
    · intro h
      simp [mergePatch, h]
    · intro h
      simp [mergePatch, h]
    · intro h
      simp [mergePatch, h]
    · intro h
      simp [mergePatch, h]
    · intro u hu hui
      exact mem_update_ne i p store u hu hui

/-- Witness for `updateTransaction_contract`: patching a missing id
errors and leaves the store unchanged; patching `txA`'s id with the
sync patch persists the merged record. -/
theorem updateTransaction_contract_witness :
    (updateTransaction "zz" (syncPatch "T") [txA]).1 =
      Except.error StoreErr.notFound ∧
    (updateTransaction "zz" (syncPatch "T") [txA]).2 = [txA] ∧
    getById (updateTransaction "a1" (syncPatch "T") [txA]).2 "a1" =
      some (mergePatch txA (syncPatch "T")) := by
  have h1 := updateTransaction_contract "zz" (syncPatch "T") [txA]
  have h2 := updateTransaction_contract "a1" (syncPatch "T") [txA]
  have hn := h1.1 (by decide)
  have hs := h2.2 txA (by decide)
  exact ⟨hn.1, hn.2, hs.2.1⟩

/-- CacheStorage after a version-1 worker was active (its namespace
holds a version-1-only asset) and version 2's install created its own
namespace alongside. -/
def csTwoVersions : CacheStore :=
  [{ name := "om-cache-v1",
     entries := [("/assets/v1-only.js", { status := 200, body := "v1js" })] },
   { name := "om-cache-v2", entries := [] }]

/-- CacheStorage for the `public/service-worker.js` scenario: a stale
version-0 namespace next to the worker's own `om-cache-v1`. -/
def csStaleV0 : CacheStore :=
  [{ name := "om-cache-v0", entries := [] },
   { name := "om-cache-v1", entries := [] }]

/-- C7 counterexample: the `activate` listener of
`public/service-worker.js` only claims the clients and deletes no
cache namespace: activating it over a CacheStorage that still holds a
stale previous-version namespace leaves both namespaces in place (2,
not exactly 1), and the stale name differs from the current version
token. -/
theorem activate_public_no_cleanup_cex :
    activatePublicV1 csStaleV0 = csStaleV0 ∧
    ("om-cache-v0" == CACHE_NAME_V1) = false ∧
    (activatePublicV1 csStaleV0).length = 2 ∧
    ¬ (activatePublicV1 csStaleV0).length = 1 := by
  decide

/-- C7 (amended): only the second service-worker variant performs the
cutover: its `activate` deletes every namespace whose name differs
from its `CACHE_NAME`, so exactly the current-version namespaces
remain (exactly one when the names are distinct and version 2's
namespace exists, e.g. after its install), and any URL still served
from cache afterwards comes from the version-2 namespace — a
version-1-only asset misses.  The `public/service-worker.js` variant
deletes nothing on activate (see the counterexample). -/
theorem activateV2_cutover (cs : CacheStore) :
    ((activateV2 cs).map (fun c => c.name) =
      (cs.map (fun c => c.name)).filter (fun k => k == CACHE_NAME_V2)) ∧
    ((cs.map (fun c => c.name)).Nodup →
      CACHE_NAME_V2 ∈ cs.map (fun c => c.name) →
      (activateV2 cs).length = 1) ∧
    (∀ url r, cachesMatch (activateV2 cs) url = some r →
      ∃ c ∈ cs, c.name = CACHE_NAME_V2 ∧ cacheLookup c url = some r) := by
  have hmap : (activateV2 cs).map (fun c => c.name) =
      (cs.map (fun c => c.name)).filter (fun k => k == CACHE_NAME_V2) := by
    rw [activateV2_eq_filter]
    exact map_name_filter_v2 cs
  refine ⟨hmap, ?_, ?_⟩
  · intro hnd hmem
    have hlen : (activateV2 cs).length =
        ((cs.map (fun c => c.name)).filter
          (fun k => k == CACHE_NAME_V2)).length := by
      rw [← hmap, List.length_map]
    rw [hlen, ← List.countP_eq_length_filter, ← List.count_eq_countP]
    exact List.count_eq_one_of_mem hnd hmem
  · intro url r h
    exact cachesMatch_activateV2 cs url r h

/-- Witness for `activateV2_cutover`: activating version 2 over the
two-version CacheStorage leaves exactly one namespace, and the
version-1-only asset misses. -/
theorem activateV2_cutover_witness :
    (activateV2 csTwoVersions).length = 1 ∧
    cachesMatch (activateV2 csTwoVersions) "/assets/v1-only.js" = none := by
  refine ⟨(activateV2_cutover csTwoVersions).2.1 (by decide) (by decide), ?_⟩
  decide

/-- The CacheStorage of an active version-1 `public/service-worker.js`
holding its cached shell at `/`. -/
def csV1Shell : CacheStore :=
  [{ name := "om-cache-v1",
     entries := [("/", { status := 200, body := "shell-v1" })] }]

/-- A navigation request for the application shell. -/
def navReq : Request :=
  { url := "/", method := "GET", mode := "navigate", sameOrigin := true }

/-- C8 counterexample: the `fetch` listener of
`public/service-worker.js` answers every request — navigations
included — with `caches.match` first: with the shell cached and the
network available with a fresh response, it returns the cached
response and never consults the network (third component `false`), so
navigations are not network-first in this worker. -/
theorem fetch_public_nav_cache_first_cex :
    fetchPublicV1 navReq (some { status := 200, body := "fresh" }) csV1Shell =
      (some { status := 200, body := "shell-v1" }, csV1Shell, false) ∧
    ¬ ({ status := 200, body := "shell-v1" } : Response) =
      { status := 200, body := "fresh" } := by
  decide

/-- C8 (amended): only the second service-worker variant is
network-first for navigation requests: it always consults the network;
a 200 network response is stored in its cache namespace keyed by the
request URL (retrievable there afterwards) and returned; on network
failure it falls back to the cached `/index.html` shell entry, leaving
the cache unchanged.  The `public/service-worker.js` variant instead
serves navigations cache-first (see the counterexample). -/
theorem fetchNavigateV2_network_first (req : Request) (cs : CacheStore)
    (r : Response) (h200 : r.status = 200) :
    fetchNavigateV2 req (some r) cs =
      (some r, cachePut cs CACHE_NAME_V2 req.url r, true) ∧
    cacheGet (cachePut cs CACHE_NAME_V2 req.url r) CACHE_NAME_V2 req.url =
      some r ∧
    fetchNavigateV2 req none cs = (cachesMatch cs "/index.html", cs, true) := by
  refine ⟨?_, cacheGet_cachePut cs CACHE_NAME_V2 req.url r, rfl⟩
  simp [fetchNavigateV2, h200]

/-- Witness for `fetchNavigateV2_network_first` on the shell
navigation request, an empty CacheStorage and a 200 response. -/
theorem fetchNavigateV2_network_first_witness :
    fetchNavigateV2 navReq (some { status := 200, body := "fresh" }) [] =
      (some { status := 200, body := "fresh" },
        cachePut [] CACHE_NAME_V2 navReq.url { status := 200, body := "fresh" },
        true) ∧
    cacheGet (cachePut [] CACHE_NAME_V2 navReq.url
        { status := 200, body := "fresh" }) CACHE_NAME_V2 navReq.url =
      some { status := 200, body := "fresh" } ∧
    fetchNavigateV2 navReq none [] = (cachesMatch [] "/index.html", [], true) :=
  fetchNavigateV2_network_first navReq [] { status := 200, body := "fresh" } rfl

/-- The variant-B form filled with a negative amount string. -/
def formBneg : FormB :=
  { type := "deposit", prenom := "Jean", nom := "Traore",
    id_document := "D9", telephone := "70000009", montant := "-5" }

/-- The record variant B builds from `formBneg`. -/
def txBneg : TxnB :=
  { id := "id9", type := "deposit", prenom := "Jean", nom := "Traore",
    id_document := "D9", telephone := "70000009", montant := some (-5),
    status := "pending", created_at := "T9", synced_at := none }

/-- C9 counterexample: variant B's `handleSubmit` passes its minimal
validation on the string `-5` (a non-empty field) and stores
`montant = parseFloat of -5 = -5`, a negative amount — so not every
record created by form submission has a non-negative amount, and the
two variants (integer `parseInt` pipeline vs raw `parseFloat`) do not
share one canonical representation. -/
theorem handleSubmitB_negative_montant_cex :
    handleSubmitB "id9" "T9" formBneg = some txBneg ∧
    txBneg.montant = some (-5) ∧
    ¬ (0 : Int) ≤ -5 := by
  decide

/-- C9 (amended): variant A's `handleSubmit` always stores a
non-negative integer amount: the `montant` field only ever holds an
output of `formatAmountInput` (digits grouped by spaces), and
`parseAmount` of such a string is a non-negative integer; the created
record is `pending`.  Variant B's `handleSubmit` instead stores the
raw `parseFloat` of the field, which can be negative (see the
counterexample). -/
theorem handleSubmitA_montant_nonneg (freshId now raw : String)
    (form : FormA) (hm : form.montant = formatAmountInput raw) (tx : Txn)
    (h : handleSubmitA freshId now form = some tx) :
    0 ≤ tx.montant ∧ tx.status = "pending" := by
  unfold handleSubmitA at h
  split at h
  · cases h
  · injection h with h'
    subst h'
    refine ⟨?_, rfl⟩
    show 0 ≤ parseAmount form.montant
    rw [hm]
    exact parseAmount_formatAmountInput_nonneg raw

/-- The variant-A form with the amount field as typed through the
formatting input handler. -/
def formA50 : FormA :=
  { type := "deposit", nom_complet := "Ada", id_document := "D1",
    telephone := "70000001", montant := formatAmountInput "50000" }

/-- The record variant A builds from `formA50`. -/
def txA50 : Txn :=
  { id := "w9", type := "deposit", nom_complet := "Ada", id_document := "D1",
    telephone := "70000001",
    montant := parseAmount (formatAmountInput "50000"),
    status := "pending", created_at := "T", synced_at := none }

/-- Witness for `handleSubmitA_montant_nonneg` on a concrete
submission of 50000. -/
theorem handleSubmitA_montant_nonneg_witness :
    0 ≤ txA50.montant ∧ txA50.status = "pending" :=
  handleSubmitA_montant_nonneg "w9" "T" "50000" formA50 rfl txA50 (by decide)

/-- C10: the stub transport answers any batch with `ok = true` and
`syncedIds` equal to exactly the ids of the batch (never a failure,
never a proper subset), so a completed `trySync` cycle — phase 1
submitting the nonempty pending snapshot, phase 2 applying the
response — leaves every submitted pending record marked `synced` with
`synced_at` set in the store. -/
theorem fakeSendToServer_accepts_all (s : AppState) (now : String)
    (hnd : (s.store.map (fun x => x.id)).Nodup)
    (hsub : ∀ t ∈ s.transactions, t ∈ s.store)
    (hne : pendingOf s.transactions ≠ []) :
    (fakeSendToServer (pendingOf s.transactions)).ok = true ∧
    (fakeSendToServer (pendingOf s.transactions)).syncedIds =
      (pendingOf s.transactions).map (fun t => t.id) ∧
    (trySyncPhase1 s).2 = some (pendingOf s.transactions) ∧
    (∀ t ∈ pendingOf s.transactions,
      getById (trySyncPhase2 now (pendingOf s.transactions)
          (trySyncPhase1 s).1).store t.id =
        some { t with status := "synced", synced_at := some now }) := by
  have hlen : ¬ (pendingOf s.transactions).length = 0 := by
    intro h0
    exact hne (List.length_eq_zero.mp h0)
  have hph1 : (trySyncPhase1 s).1.store = s.store := by
    simp [trySyncPhase1, hlen]
  refine ⟨rfl, rfl, ?_, ?_⟩
  · simp [trySyncPhase1, hlen]
  · intro t ht
    have htx : t ∈ s.transactions := (List.mem_filter.mp ht).1
    have hts : t ∈ s.store := hsub t htx
    have hget : getById s.store t.id = some t :=
      getById_of_mem_nodup s.store t hts hnd
    have hid : t.id ∈ (pendingOf s.transactions).map (fun t => t.id) :=
      List.mem_map_of_mem _ ht
    have hstore : (trySyncPhase2 now (pendingOf s.transactions)
        (trySyncPhase1 s).1).store =
        applyAccepted now
          ((pendingOf s.transactions).map (fun t => t.id)) s.store := by
      simp [trySyncPhase2, fakeSendToServer, hph1]
    rw [hstore, ← mergePatch_syncPatch]
    exact getById_applyAccepted_mem now _ s.store t.id t hget hid

/-- Witness for `fakeSendToServer_accepts_all` at `stOnePending`. -/
theorem fakeSendToServer_accepts_all_witness :
    getById (trySyncPhase2 "T" (pendingOf stOnePending.transactions)
        (trySyncPhase1 stOnePending).1).store "a1" =
      some { txA with status := "synced", synced_at := some "T" } := by
  have h := fakeSendToServer_accepts_all stOnePending "T"
    (by decide) (by decide) (by decide)
  exact h.2.2.2 txA (by decide)

end TransacMoneySauv
